import Mathlib

/-!
Verification of the version-ledger and filesystem-safety core of
`box_manager.py` (vagrant-box-tweaker).

The Python source is shallowly embedded:
* strings are Lean `String`s, manipulated through their underlying `List Char`;
* Python stdlib path helpers (`os.path.join`, `os.path.abspath`,
  `str.split`, `str.replace`, `str.startswith`) are modelled by their
  documented POSIX semantics;
* fallible operations (`int(...)`, `providers[0]`, missing manifest) return
  `Option`;
* the filesystem side effects of `prune_boxes` are modelled as an ordered
  trace of `FsOp` effects, so that temporal ordering claims are statable.
-/

/-- Python `s.split(c)` for a single-character separator, on `List Char`:
always returns a non-empty list of separator-free segments. -/
def splitOnCharL (c : Char) : List Char → List (List Char)
  | [] => [[]]
  | x :: xs =>
    if x = c then [] :: splitOnCharL c xs
    else
      match splitOnCharL c xs with
      | [] => [[x]]
      | seg :: rest => (x :: seg) :: rest

/-- Python `s.split(c)` (single-character separator) on `String`. -/
def strSplit (c : Char) (s : String) : List String :=
  (splitOnCharL c s.data).map String.mk

/-- Python `url.split('/')[-1]` as used at `box_manager.py:202-203`. -/
def lastSegment (s : String) : String :=
  (strSplit '/' s).getLastD ""

/-- Python `a.startswith(b)`. -/
def strStartsWith (a b : String) : Bool :=
  b.data.isPrefixOf a.data

/-- POSIX `os.path.join(a, b)` for two components. -/
def osPathJoin (a b : String) : String :=
  if b.data.head? = some '/' then b
  else if a = "" then b
  else if a.data.getLast? = some '/' then a ++ b
  else a ++ "/" ++ b

/-- One step of POSIX path normalisation: fold the split components of an
absolute path over a stack, dropping empty and `.` components and letting
`..` pop the stack (at the root, `..` is dropped). -/
def normComps : List String → List String → List String
  | [], stack => stack.reverse
  | c :: rest, stack =>
    if c = "" ∨ c = "." then normComps rest stack
    else if c = ".." then normComps rest stack.tail
    else normComps rest (c :: stack)

/-- POSIX `os.path.abspath` as it behaves on the inputs produced at the
guarded call sites of `box_manager.py`: all of them are already absolute
paths with a single leading slash, so `abspath` coincides with `normpath`
(resolve `.` and `..`, collapse repeated slashes). -/
def pyAbspath (s : String) : String :=
  "/" ++ String.intercalate "/" (normComps (strSplit '/' s) [])

/-- `INSTALL_DIR` constant, `box_manager.py:48`. -/
def INSTALL_DIR : String := "/opt/vagrant_boxes"

/-- `LOCAL_BUILD_DIR` constant, `box_manager.py:52`. -/
def LOCAL_BUILD_DIR : String := "/tmp"

/-- `BOXES_DIR` constant, `box_manager.py:54`. -/
def BOXES_DIR : String := osPathJoin INSTALL_DIR "boxes"

/-- `escape_box_name`, `box_manager.py:141-145`: Python
`box_name.replace('/', '_')`. -/
def escape_box_name (box_name : String) : String :=
  String.mk (box_name.data.map (fun c => if c = '/' then '_' else c))

/-- `get_box_dir_name`, `box_manager.py:147-152`. -/
def get_box_dir_name (box_name : String) : String :=
  escape_box_name box_name

/-- `get_box_dir_path`, `box_manager.py:154-160`. -/
def get_box_dir_path (box_name : String) : String :=
  osPathJoin (osPathJoin INSTALL_DIR "boxes") (get_box_dir_name box_name)

/-- `get_box_json_path`, `box_manager.py:162-167`. -/
def get_box_json_path (box_name : String) : String :=
  get_box_dir_path box_name ++ ".json"

/-- A provider record of the JSON manifest (§3 of the spec, produced at
`box_manager.py:403-408`). -/
structure Provider where
  name : String
  url : String
  checksum_type : String
  checksum : String
deriving DecidableEq, Repr

/-- A version entry of the JSON manifest: the `version` field is stored as a
string on the wire and parsed with Python `int` by consumers. -/
structure VersionEntry where
  version : String
  providers : List Provider
deriving DecidableEq, Repr

/-- The JSON manifest document (`box_file_dict` in the Python source). -/
structure BoxDict where
  name : String
  description : String
  versions : List VersionEntry
deriving DecidableEq, Repr

/-- Decimal digit value of a character, `none` for non-digits. -/
def digitVal (c : Char) : Option Nat :=
  if '0' ≤ c ∧ c ≤ '9' then some (c.toNat - '0'.toNat) else none

/-- Accumulate a decimal number over a digit list, failing on a non-digit. -/
def parseDigits : List Char → Nat → Option Nat
  | [], acc => some acc
  | c :: cs, acc =>
    match digitVal c with
    | none => none
    | some d => parseDigits cs (acc * 10 + d)

/-- Python `int(s)` on canonical decimal integer literals (an optional minus
sign followed by at least one digit); `none` models the `ValueError`
raised on anything else. -/
def pyInt (s : String) : Option Int :=
  match s.data with
  | [] => none
  | '-' :: rest =>
    if rest = [] then none
    else (parseDigits rest 0).map (fun n => -(n : Int))
  | l => (parseDigits l 0).map (fun n => (n : Int))

/-- Python `int(version['version'])`, `box_manager.py:185` and `:395`. -/
def parseVersion (e : VersionEntry) : Option Int :=
  pyInt e.version

/-- The `latest_version_n` accumulation loop of `update_box_json`,
`box_manager.py:393-397`: starts from `0` and keeps the largest parsed
version, failing if any `version` field is non-numeric. -/
def latestVersionN : List VersionEntry → Int → Option Int
  | [], latest => some latest
  | e :: rest, latest =>
    match parseVersion e with
    | none => none
    | some v => latestVersionN rest (if v > latest then v else latest)

/-- `update_box_json`, `box_manager.py:376-414`.  The manifest file is
modelled by its parsed content: `none` for "file absent", `some d` for a
parseable file containing `d`.  The result is the dict written back, or
`none` when the Python code would raise before writing. -/
def update_box_json (existing : Option BoxDict)
    (box_name box_description box_url box_sha1 : String) : Option BoxDict :=
  let start : Option (BoxDict × Int) :=
    match existing with
    | none =>
      some ({ name := box_name, description := box_description, versions := [] }, 1)
    | some d =>
      (latestVersionN d.versions 0).map (fun latest => (d, latest + 1))
  start.map (fun p =>
    let new_version : VersionEntry :=
      { version := toString p.2
        providers := [{ name := "virtualbox", url := box_url
                        checksum_type := "sha1", checksum := box_sha1 }] }
    { p.1 with versions := p.1.versions ++ [new_version] })

/-- A filesystem mutation performed by `prune_boxes`, in program order. -/
inductive FsOp where
  | writeJson (path : String) (d : BoxDict)
  | removeFile (path : String)
deriving DecidableEq, Repr

/-- Python list insertion-sort helper: ascending, stable. -/
def insertSorted (x : Int) : List Int → List Int
  | [] => [x]
  | y :: ys => if x ≤ y then x :: y :: ys else y :: insertSorted x ys

/-- Python `versions.sort()` (ascending) on a list of ints. -/
def sortAsc : List Int → List Int
  | [] => []
  | x :: xs => insertSorted x (sortAsc xs)

/-- Python slice `l[0:n]` for an `int` bound `n`, the exact semantics of
`versions[0:args.n]` at `box_manager.py:191`: for `n ≥ 0` the first `n`
elements; for `n < 0` the first `len(l) + n` elements (empty when
`len(l) + n ≤ 0`). -/
def pySlice0 (l : List Int) (n : Int) : List Int :=
  if 0 ≤ n then l.take n.toNat
  else l.take ((l.length : Int) + n).toNat

/-- The first loop of `prune_boxes`, `box_manager.py:183-186`: parse every
`version` field with `int`, failing on the first non-numeric one. -/
def collectVersions : List VersionEntry → Option (List Int)
  | [] => some []
  | e :: rest =>
    match parseVersion e with
    | none => none
    | some v => (collectVersions rest).map (fun vs => v :: vs)

/-- The partition loop of `prune_boxes`, `box_manager.py:193-207`: walk the
entries in manifest order; entries whose parsed version is in
`keep_versions` are kept, the others contribute a
`(version, os.path.join(box_dir, url.split('/')[-1]))` pair to the prune
list.  `none` models the exceptions Python can raise here (non-numeric
version, empty `providers` list). -/
def pruneLoop (box_dir : String) (keep_versions : List Int) :
    List VersionEntry → Option (List VersionEntry × List (Int × String))
  | [] => some ([], [])
  | e :: rest =>
    match parseVersion e with
    | none => none
    | some version_num =>
      if version_num ∈ keep_versions then
        match pruneLoop box_dir keep_versions rest with
        | none => none
        | some (ks, ps) => some (e :: ks, ps)
      else
        match e.providers.head? with
        | none => none
        | some provider =>
          match pruneLoop box_dir keep_versions rest with
          | none => none
          | some (ks, ps) =>
            some (ks, (version_num, osPathJoin box_dir (lastSegment provider.url)) :: ps)

/-- `prune_boxes`, `box_manager.py:169-217`.  `manifest` is the parsed
content of the box's JSON file (`none` when the file does not exist, the
check at line 177).  The result is the ordered trace of filesystem
mutations the function performs: the rewritten-ledger write of lines
209-211 followed by the `os.remove` calls of lines 213-217; `none` means
the function raises before performing any mutation. -/
def prune_boxes (box : String) (n : Int) (manifest : Option BoxDict) :
    Option (List FsOp) :=
  let box_dir := get_box_dir_path box
  let box_json_filename := get_box_json_path box
  match manifest with
  | none => none
  | some d =>
    match collectVersions d.versions with
    | none => none
    | some versions =>
      let keep_versions := pySlice0 ((sortAsc versions).reverse) n
      match pruneLoop box_dir keep_versions d.versions with
      | none => none
      | some (versions_to_keep, boxes_to_prune) =>
        some (FsOp.writeJson box_json_filename { d with versions := versions_to_keep }
                :: boxes_to_prune.map (fun b => FsOp.removeFile b.2))

/-- The read/update loop of `sha1_file`, `box_manager.py:369-373`: the
bytes fed to the hash accumulator, in order, when the file's content is
read in `block_size`-byte chunks until a read returns nothing. -/
def feedLoop (block_size : Nat) (content : List UInt8) : List UInt8 :=
  if block_size = 0 ∨ content = [] then []
  else content.take block_size ++ feedLoop block_size (content.drop block_size)
termination_by content.length
decreasing_by
  rename_i h
  simp only [not_or] at h
  have hbs : 0 < block_size := Nat.pos_of_ne_zero h.1
  have hc : content ≠ [] := h.2
  have : content.length - block_size < content.length := by
    have := List.length_pos.mpr hc
    omega
  simpa using this

/-- `sha1_file`, `box_manager.py:361-374`, with the SHA-1 accumulator
abstracted: `hexdigest` stands for the digest of hashlib's accumulator as a
function of the concatenation of all bytes fed to `update` (hashlib is
external to this repository).  `block_size` is a parameter so that the
chunk-size-independence property is statable; the source fixes it to
`65536`. -/
def sha1_file (hexdigest : List UInt8 → String) (block_size : Nat)
    (content : List UInt8) : String :=
  hexdigest (feedLoop block_size content)

/-- The directory-traversal guard pattern shared by the three call sites
(`box_manager.py:317-320`, `327-330`, `255-258`): resolve the candidate
with `os.path.abspath` and test `resolved.startswith(ancestor)`, raising
(`none`) when the test fails. -/
def path_guard (candidate ancestor : String) : Option String :=
  let resolved := pyAbspath candidate
  if strStartsWith resolved ancestor then some resolved else none

/-- Call site (c), `set_up_build_directory`, `box_manager.py:254-258`:
guard the temporary build directory against `LOCAL_BUILD_DIR`. -/
def set_up_build_directory_guard (box_id : String) : Option String :=
  path_guard (osPathJoin LOCAL_BUILD_DIR ("vagrant_box_build-" ++ box_id))
    LOCAL_BUILD_DIR

/-- Call site (a), `update_box_list`, `box_manager.py:314-320`: guard the
per-box artifact directory against `BOXES_DIR`. -/
def update_box_list_dir_guard (target_box : String) : Option String :=
  path_guard (get_box_dir_path target_box) BOXES_DIR

/-- Call site (b), `update_box_list`, `box_manager.py:325-330`: guard the
destination artifact filename against the per-box directory. -/
def update_box_list_target_guard (full_box_path box_id : String) : Option String :=
  path_guard (osPathJoin full_box_path (box_id ++ ".box")) full_box_path

/-- Definition following the spec's words (§4.2), for comparison with
`path_guard`: a resolved path is contained in an ancestor directory when it
is equal to the ancestor or nested under it (the ancestor followed by a
path separator is a prefix of it). -/
def spec_containedB (resolved ancestor : String) : Bool :=
  resolved == ancestor || (ancestor ++ "/").data.isPrefixOf resolved.data

/-- Example manifest entry: version `"1"`, artifact `f1.box`. -/
def sampleEntry1 : VersionEntry :=
  { version := "1"
    providers := [{ name := "virtualbox", url := "http://h/b/f1.box"
                    checksum_type := "sha1", checksum := "c1" }] }

/-- Example manifest entry: version `"2"`, artifact `f2.box`. -/
def sampleEntry2 : VersionEntry :=
  { version := "2"
    providers := [{ name := "virtualbox", url := "http://h/b/f2.box"
                    checksum_type := "sha1", checksum := "c2" }] }

/-- Example manifest for box `b` holding versions `1` and `2`. -/
def sampleLedger2 : BoxDict :=
  { name := "b", description := "desc", versions := [sampleEntry1, sampleEntry2] }

/-- Example manifest whose version numbers appear out of order (3, 7, 5). -/
def sampleLedger3 : BoxDict :=
  { name := "n", description := "d"
    versions := [{ version := "3", providers := [] }
                 , { version := "7", providers := [] }
                 , { version := "5", providers := [] }] }

/-- Example manifest for the degenerate empty box name, with an artifact URL
whose last segment is `.json`. -/
def sampleLedgerJ : BoxDict :=
  { name := "", description := "d"
    versions := [{ version := "1"
                   providers := [{ name := "virtualbox", url := "http://h/.json"
                                   checksum_type := "sha1", checksum := "c" }] }] }

/-- The result of appending version `"3"` (max of 1, 2, plus one) to
`sampleLedger2` with provider URL `u` and checksum `s`. -/
def sampleLedger2Appended : BoxDict :=
  { name := "b", description := "desc"
    versions := [sampleEntry1, sampleEntry2
                 , { version := "3"
                     providers := [{ name := "virtualbox", url := "u"
                                     checksum_type := "sha1", checksum := "s" }] }] }

/-- C5: appending to an absent ledger builds a ledger with the given name and
description and exactly one version entry whose `version` field is the
string `"1"` (serialized quoted, `box_manager.py:383-411`). -/
theorem c5_append_absent_ledger (nm ds url sha : String) :
    update_box_json none nm ds url sha =
      some { name := nm, description := ds
             versions := [{ version := "1"
                            providers := [{ name := "virtualbox", url := url
                                            checksum_type := "sha1"
                                            checksum := sha }] }] } := rfl

/-- C6: pruning a box whose manifest file does not exist fails before any
filesystem mutation: the effect trace is `none`, so no file is deleted and
no ledger is written (`box_manager.py:177-178`). -/
theorem c6_prune_missing_manifest (box : String) (n : Int) :
    prune_boxes box n none = none := rfl

/-- C10: the escaped-name mapping is not injective: the distinct box names
`a/b` and `a_b` share one escaped directory name, one artifact directory
path and one manifest path (`box_manager.py:141-167`). -/
theorem c10_escape_not_injective :
    ("a/b" : String) ≠ "a_b" ∧
    escape_box_name "a/b" = escape_box_name "a_b" ∧
    get_box_dir_path "a/b" = get_box_dir_path "a_b" ∧
    get_box_json_path "a/b" = get_box_json_path "a_b" := by
  refine ⟨by decide, rfl, rfl, rfl⟩

/-- C2, failing input: on a two-version ledger, `prune` with `keep_count`
`-1` is `versions[0:-1]` slicing (`box_manager.py:191`), which retains the
highest version and removes only the lowest — not the claimed
"retains nothing" behaviour of `keep_count = 0`. -/
theorem c2_negative_keep_slice_eval :
    prune_boxes "b" (-1) (some sampleLedger2) =
      some [FsOp.writeJson (get_box_json_path "b")
              { sampleLedger2 with versions := [sampleEntry2] }
            , FsOp.removeFile "/opt/vagrant_boxes/boxes/b/f1.box"] ∧
    prune_boxes "b" 0 (some sampleLedger2) =
      some [FsOp.writeJson (get_box_json_path "b")
              { sampleLedger2 with versions := [] }
            , FsOp.removeFile "/opt/vagrant_boxes/boxes/b/f1.box"
            , FsOp.removeFile "/opt/vagrant_boxes/boxes/b/f2.box"] ∧
    prune_boxes "b" (-1) (some sampleLedger2) ≠
      prune_boxes "b" 0 (some sampleLedger2) := by
  refine ⟨rfl, rfl, by decide⟩

/-- C1, counterexample: at the `set_up_build_directory` call site the guard
accepts `box_id = "x/../../tmpevil"`, whose resolved build directory
`/tmpevil` is not equal to nor nested under `/tmp`; the `startswith` test
(`box_manager.py:256`) passes on a mere string prefix. -/
theorem c1_guard_counterexample :
    set_up_build_directory_guard "x/../../tmpevil" = some "/tmpevil" ∧
    pyAbspath (osPathJoin LOCAL_BUILD_DIR ("vagrant_box_build-" ++ "x/../../tmpevil"))
      = "/tmpevil" ∧
    spec_containedB "/tmpevil" LOCAL_BUILD_DIR = false := by
  refine ⟨rfl, rfl, rfl⟩

/-- C9, counterexample: with the empty box name the escaped directory name is
empty, the artifact directory path ends in a slash, and pruning a version
whose URL ends in `/.json` deletes exactly the manifest path itself. -/
theorem c9_counterexample_manifest_deleted :
    prune_boxes "" 0 (some sampleLedgerJ) =
      some [FsOp.writeJson (get_box_json_path "")
              { sampleLedgerJ with versions := [] }
            , FsOp.removeFile (get_box_json_path "")] := rfl

/-- `splitOnCharL` always returns at least one segment. -/
theorem splitOnCharL_ne_nil (c : Char) (l : List Char) : splitOnCharL c l ≠ [] := by
  induction l with
  | nil => simp [splitOnCharL]
  | cons x xs ih =>
    simp only [splitOnCharL]
    by_cases hx : x = c
    · simp [hx]
    · rw [if_neg hx]
      cases h : splitOnCharL c xs with
      | nil => simp
      | cons seg rest => simp

/-- No segment produced by `splitOnCharL` contains the separator. -/
theorem splitOnCharL_no_sep (c : Char) (l : List Char) :
    ∀ seg ∈ splitOnCharL c l, c ∉ seg := by
  induction l with
  | nil =>
    intro seg hs
    simp only [splitOnCharL, List.mem_singleton] at hs
    simp [hs]
  | cons x xs ih =>
    intro seg hs
    simp only [splitOnCharL] at hs
    by_cases hx : x = c
    · rw [if_pos hx] at hs
      rcases List.mem_cons.mp hs with h | h
      · simp [h]
      · exact ih seg h
    · rw [if_neg hx] at hs
      cases hsp : splitOnCharL c xs with
      | nil => exact absurd hsp (splitOnCharL_ne_nil c xs)
      | cons s0 rest =>
        rw [hsp] at hs
        rcases List.mem_cons.mp hs with h | h
        · subst h
          intro hc
          rcases List.mem_cons.mp hc with h1 | h1
          · exact hx h1.symm
          · exact ih s0 (by rw [hsp]; exact List.mem_cons_self _ _) h1
        · exact ih seg (by rw [hsp]; exact List.mem_cons_of_mem _ h)

/-- The last URL segment extracted at `box_manager.py:203` never contains a
path separator. -/
theorem lastSegment_no_slash (s : String) : '/' ∉ (lastSegment s).data := by
  unfold lastSegment strSplit
  rw [List.getLastD_eq_getLast?]
  cases hl : (splitOnCharL '/' s.data).map String.mk |>.getLast? with
  | none =>
    rw [List.getLast?_eq_none_iff] at hl
    exact absurd (List.map_eq_nil_iff.mp hl) (splitOnCharL_ne_nil '/' s.data)
  | some seg =>
    simp only [Option.getD_some]
    have hmem : seg ∈ (splitOnCharL '/' s.data).map String.mk :=
      List.mem_of_mem_getLast? (by rw [hl]; exact Option.mem_some_self seg)
    rcases List.mem_map.mp hmem with ⟨segL, hsegL, rfl⟩
    exact splitOnCharL_no_sep '/' s.data segL hsegL

/-- `escape_box_name` output never contains `/`. -/
theorem escape_box_name_no_slash (b : String) :
    '/' ∉ (escape_box_name b).data := by
  unfold escape_box_name
  intro h
  rcases List.mem_map.mp h with ⟨c, _, hc⟩
  by_cases hcs : c = '/'
  · rw [if_pos hcs] at hc
    exact absurd hc (by decide)
  · rw [if_neg hcs] at hc
    exact hcs hc

/-- `escape_box_name` of a non-empty name is non-empty. -/
theorem escape_box_name_ne_nil (b : String) (hb : b ≠ "") :
    (escape_box_name b).data ≠ [] := by
  unfold escape_box_name
  intro h
  rw [List.map_eq_nil_iff] at h
  exact hb (String.ext h)

/-- `os.path.join` for a non-empty directory not ending in a slash and a
component not starting with one is plain slash-separated concatenation. -/
theorem osPathJoin_eq_concat (a f : String) (ha1 : a ≠ "")
    (ha2 : a.data.getLast? ≠ some '/') (hf : f.data.head? ≠ some '/') :
    osPathJoin a f = a ++ "/" ++ f := by
  unfold osPathJoin
  rw [if_neg hf, if_neg ha1, if_neg ha2]

/-- C1, amended: the guard resolves the candidate with `abspath` and tests
only that the ancestor is a string prefix of the result.  Containment
(equality or nesting, the spec's §4.2 notion) always implies that the guard
succeeds and returns the resolved path; the converse fails, since a
non-contained sibling path whose string form extends the ancestor also
passes (see the counterexample). -/
theorem c1_guard_containment_implies_success (candidate ancestor : String)
    (h : spec_containedB (pyAbspath candidate) ancestor = true) :
    path_guard candidate ancestor = some (pyAbspath candidate) := by
  have hs : strStartsWith (pyAbspath candidate) ancestor = true := by
    unfold spec_containedB at h
    unfold strStartsWith
    rcases Bool.or_eq_true _ _ |>.mp h with h1 | h2
    · have he : pyAbspath candidate = ancestor := beq_iff_eq.mp h1
      rw [he]
      exact List.isPrefixOf_iff_prefix.mpr List.prefix_rfl
    · apply List.isPrefixOf_iff_prefix.mpr
      have h2p : (ancestor ++ "/").data <+: (pyAbspath candidate).data :=
        List.isPrefixOf_iff_prefix.mp h2
      have hstep : ancestor.data <+: (ancestor ++ "/").data := ⟨("/" : String).data, rfl⟩
      exact hstep.trans h2p
  unfold path_guard
  simp [hs]

/-- Witness for the amended C1 theorem at a genuinely contained path. -/
theorem c1_guard_containment_implies_success_witness :
    spec_containedB (pyAbspath "/tmp/sub/a.box") "/tmp" = true ∧
    path_guard "/tmp/sub/a.box" "/tmp" = some (pyAbspath "/tmp/sub/a.box") :=
  ⟨by decide, c1_guard_containment_implies_success "/tmp/sub/a.box" "/tmp" (by decide)⟩

/-- The read/update loop of `sha1_file` feeds exactly the file's content,
in order, for every positive block size. -/
theorem feedLoop_eq_self (bs : Nat) (hbs : 0 < bs) (content : List UInt8) :
    feedLoop bs content = content := by
  rw [feedLoop]
  by_cases hc : content = []
  · simp [hc]
  · have hcond : ¬ (bs = 0 ∨ content = []) := by
      push_neg
      exact ⟨Nat.pos_iff_ne_zero.mp hbs, hc⟩
    rw [if_neg hcond]
    rw [feedLoop_eq_self bs hbs (content.drop bs)]
    exact List.take_append_drop bs content
termination_by content.length
decreasing_by
  have := List.length_pos.mpr hc
  simp only [List.length_drop]
  omega

/-- C8: for every positive block size the bytes fed to the hash accumulator
are exactly the file's content, so the digest is that of the whole content
and is independent of the block size actually used (`box_manager.py:361-374`;
`hexdigest` abstracts hashlib's SHA-1 accumulator as a function of the
concatenated update bytes). -/
theorem c8_sha1_chunk_independent (hexdigest : List UInt8 → String) (bs : Nat)
    (hbs : 0 < bs) (content : List UInt8) :
    feedLoop bs content = content ∧
    sha1_file hexdigest bs content = hexdigest content ∧
    sha1_file hexdigest bs content = sha1_file hexdigest 65536 content := by
  have h1 := feedLoop_eq_self bs hbs content
  have h2 := feedLoop_eq_self 65536 (by norm_num) content
  refine ⟨h1, ?_, ?_⟩
  · unfold sha1_file
    rw [h1]
  · unfold sha1_file
    rw [h1, h2]

/-- Witness for C8 at block size 3 and a five-byte content. -/
theorem c8_sha1_chunk_independent_witness :
    feedLoop 3 [1, 2, 3, 4, 5] = [1, 2, 3, 4, 5] ∧
    sha1_file (fun _ => "d") 3 [1, 2, 3, 4, 5] = "d" ∧
    sha1_file (fun _ => "d") 3 [1, 2, 3, 4, 5] =
      sha1_file (fun _ => "d") 65536 [1, 2, 3, 4, 5] :=
  c8_sha1_chunk_independent (fun _ => "d") 3 (by decide) [1, 2, 3, 4, 5]

/-- `latestVersionN` on a fully parseable entry list is the fold of binary
maximum over the parsed versions, starting from the accumulator. -/
theorem latestVersionN_parsed (entries : List VersionEntry) (vs : List Int) (acc : Int)
    (hpar : entries.map parseVersion = vs.map some) :
    latestVersionN entries acc =
      some (vs.foldl (fun a v => if v > a then v else a) acc) := by
  induction entries generalizing vs acc with
  | nil =>
    cases vs with
    | nil => simp [latestVersionN]
    | cons v vtl => simp at hpar
  | cons e es ih =>
    cases vs with
    | nil => simp at hpar
    | cons v vtl =>
      simp only [List.map_cons, List.cons.injEq] at hpar
      obtain ⟨h1, h2⟩ := hpar
      simp only [latestVersionN, h1, List.foldl_cons]
      exact ih vtl _ h2

/-- The running-maximum fold stays below any upper bound of its inputs. -/
theorem foldl_max_le (vs : List Int) (m : Int) :
    ∀ acc, (∀ v ∈ vs, v ≤ m) → acc ≤ m →
      vs.foldl (fun a v => if v > a then v else a) acc ≤ m := by
  induction vs with
  | nil =>
    intro acc _ hacc
    simpa using hacc
  | cons v vtl ih =>
    intro acc hub hacc
    simp only [List.foldl_cons]
    apply ih
    · intro w hw
      exact hub w (List.mem_cons_of_mem _ hw)
    · by_cases h : v > acc
      · rw [if_pos h]
        exact hub v (List.mem_cons_self _ _)
      · rw [if_neg h]
        exact hacc

/-- The running-maximum fold dominates every input and the accumulator. -/
theorem le_foldl_max (vs : List Int) (x : Int) :
    ∀ acc, x ∈ vs ∨ x ≤ acc →
      x ≤ vs.foldl (fun a v => if v > a then v else a) acc := by
  induction vs with
  | nil =>
    intro acc h
    rcases h with h | h
    · simp at h
    · simpa using h
  | cons v vtl ih =>
    intro acc h
    simp only [List.foldl_cons]
    rcases h with h | h
    · rcases List.mem_cons.mp h with rfl | hm
      · apply ih
        right
        by_cases hva : x > acc
        · rw [if_pos hva]
        · rw [if_neg hva]
          omega
      · exact ih _ (Or.inl hm)
    · apply ih
      right
      by_cases hva : v > acc
      · rw [if_pos hva]
        omega
      · rw [if_neg hva]
        exact h

/-- C3: the version assigned to a newly appended entry is `"1"` when the
manifest is absent or its versions list is empty, and otherwise the string
of one plus the maximum parsed version, in any entry order and with gaps
(`box_manager.py:383-398`). -/
theorem c3_next_version_number :
    (∀ nm ds url sha,
      (update_box_json none nm ds url sha).map
        (fun d2 => d2.versions.map VersionEntry.version) = some ["1"]) ∧
    (∀ (d : BoxDict) nm ds url sha, d.versions = [] →
      (update_box_json (some d) nm ds url sha).map
        (fun d2 => d2.versions.map VersionEntry.version) = some ["1"]) ∧
    (∀ (d : BoxDict) (vs : List Int) (m : Int) nm ds url sha,
      d.versions.map parseVersion = vs.map some →
      m ∈ vs → (∀ v ∈ vs, v ≤ m) → 0 ≤ m →
      (update_box_json (some d) nm ds url sha).map
        (fun d2 => (d2.versions.map VersionEntry.version).getLast?) =
        some (some (toString (m + 1)))) := by
  refine ⟨fun nm ds url sha => rfl, ?_, ?_⟩
  · intro d nm ds url sha hnil
    unfold update_box_json
    dsimp only
    rw [hnil]
    simp only [latestVersionN, Option.map_some', hnil, List.nil_append]
    have h1 : toString ((1 : Int)) = "1" := by decide
    simp [h1]
  · intro d vs m nm ds url sha hpar hmem hub hm0
    have hfold := latestVersionN_parsed d.versions vs 0 hpar
    have hle : vs.foldl (fun a v => if v > a then v else a) 0 ≤ m :=
      foldl_max_le vs m 0 hub hm0
    have hge : m ≤ vs.foldl (fun a v => if v > a then v else a) 0 :=
      le_foldl_max vs m 0 (Or.inl hmem)
    have hmax : vs.foldl (fun a v => if v > a then v else a) 0 = m :=
      le_antisymm hle hge
    rw [hmax] at hfold
    unfold update_box_json
    dsimp only
    rw [hfold]
    simp [List.getLast?_concat]

/-- Witness for C3 on the out-of-order manifest with versions 3, 7, 5: the
new entry gets version `"8"`. -/
theorem c3_next_version_number_witness :
    (update_box_json (some sampleLedger3) "nm" "ds" "u" "s").map
      (fun d2 => (d2.versions.map VersionEntry.version).getLast?) =
      some (some "8") :=
  (c3_next_version_number.2.2 sampleLedger3 [3, 7, 5] 7 "nm" "ds" "u" "s"
    (by decide) (by decide) (by decide) (by decide)).trans (by decide)

/-- C7: appending to a present ledger leaves its name, description and all
existing entries unchanged, appends exactly one entry at the end, and
ignores the caller-supplied name and description (`box_manager.py:390-411`). -/
theorem c7_append_existing_frame (d : BoxDict) (nm ds nm2 ds2 url sha : String)
    (d2 : BoxDict) (h : update_box_json (some d) nm ds url sha = some d2) :
    d2.name = d.name ∧ d2.description = d.description ∧
    d2.versions.length = d.versions.length + 1 ∧
    d2.versions.take d.versions.length = d.versions ∧
    update_box_json (some d) nm2 ds2 url sha = some d2 := by
  unfold update_box_json at h ⊢
  dsimp only at h ⊢
  cases hl : latestVersionN d.versions 0 with
  | none =>
    rw [hl] at h
    simp at h
  | some latest =>
    rw [hl] at h
    simp only [Option.map_some'] at h
    injection h with h
    subst h
    refine ⟨rfl, rfl, by simp, by simp, rfl⟩

/-- Membership in a `filterMap` is preserved when a new head is prepended. -/
theorem mem_filterMap_cons_of_mem {α β : Type} (f : α → Option β) (e : α)
    (l : List α) (b : β) (hb : b ∈ l.filterMap f) : b ∈ (e :: l).filterMap f := by
  rw [List.filterMap_cons]
  cases f e with
  | none => exact hb
  | some c => exact List.mem_cons_of_mem _ hb

/-- The partition loop of `prune_boxes` keeps entries in their original
relative order and derives every prune-list path by joining the box
directory with the last URL segment of the first provider of some input
entry. -/
theorem pruneLoop_spec (box_dir : String) (keep : List Int) :
    ∀ entries ks ps, pruneLoop box_dir keep entries = some (ks, ps) →
      ks.Sublist entries ∧
      ∀ q ∈ ps, q.2 ∈ entries.filterMap
        (fun e => (e.providers.head?).map
          (fun pr => osPathJoin box_dir (lastSegment pr.url))) := by
  intro entries
  induction entries with
  | nil =>
    intro ks ps h
    simp only [pruneLoop, Option.some.injEq, Prod.mk.injEq] at h
    obtain ⟨h1, h2⟩ := h
    subst h1
    subst h2
    exact ⟨List.Sublist.refl _, by simp⟩
  | cons e rest ih =>
    intro ks ps h
    simp only [pruneLoop] at h
    cases hv : parseVersion e with
    | none =>
      rw [hv] at h
      exact absurd h (by simp)
    | some vn =>
      rw [hv] at h
      dsimp only at h
      by_cases hk : vn ∈ keep
      · rw [if_pos hk] at h
        cases hrec : pruneLoop box_dir keep rest with
        | none =>
          rw [hrec] at h
          exact absurd h (by simp)
        | some pair =>
          obtain ⟨ks2, ps2⟩ := pair
          rw [hrec] at h
          simp only [Option.some.injEq, Prod.mk.injEq] at h
          obtain ⟨h1, h2⟩ := h
          subst h1
          subst h2
          obtain ⟨hsub, hprov⟩ := ih ks2 ps2 hrec
          refine ⟨hsub.cons₂ e, ?_⟩
          intro q hq
          exact mem_filterMap_cons_of_mem _ _ _ _ (hprov q hq)
      · rw [if_neg hk] at h
        cases hhd : e.providers.head? with
        | none =>
          rw [hhd] at h
          exact absurd h (by simp)
        | some provider =>
          rw [hhd] at h
          cases hrec : pruneLoop box_dir keep rest with
          | none =>
            rw [hrec] at h
            exact absurd h (by simp)
          | some pair =>
            obtain ⟨ks2, ps2⟩ := pair
            rw [hrec] at h
            simp only [Option.some.injEq, Prod.mk.injEq] at h
            obtain ⟨h1, h2⟩ := h
            subst h1
            subst h2
            obtain ⟨hsub, hprov⟩ := ih ks2 ps2 hrec
            refine ⟨hsub.cons e, ?_⟩
            intro q hq
            rcases List.mem_cons.mp hq with rfl | hq2
            · simp [List.filterMap_cons, hhd]
            · exact mem_filterMap_cons_of_mem _ _ _ _ (hprov q hq2)

/-- C4: the effect trace of `prune_boxes` is exactly one manifest write —
the rewritten ledger holding the retained entries in their original
relative order — followed by the file removals, so the ledger is persisted
strictly before any artifact file is deleted (`box_manager.py:209-217`). -/
theorem c4_ledger_written_before_deletions (box : String) (n : Int) (d : BoxDict)
    (vs : List Int) (ks : List VersionEntry) (ps : List (Int × String))
    (hv : collectVersions d.versions = some vs)
    (hp : pruneLoop (get_box_dir_path box) (pySlice0 ((sortAsc vs).reverse) n)
            d.versions = some (ks, ps)) :
    prune_boxes box n (some d) =
      some (FsOp.writeJson (get_box_json_path box) { d with versions := ks }
              :: ps.map (fun b => FsOp.removeFile b.2)) ∧
    ks.Sublist d.versions := by
  constructor
  · unfold prune_boxes
    dsimp only
    rw [hv]
    dsimp only
    rw [hp]
  · exact (pruneLoop_spec _ _ d.versions ks ps hp).1

/-- Witness for C4: pruning box `b` down to one version writes the pruned
ledger first, then removes the single stale artifact. -/
theorem c4_ledger_written_before_deletions_witness :
    (prune_boxes "b" 1 (some sampleLedger2) =
      some (FsOp.writeJson (get_box_json_path "b")
              { sampleLedger2 with versions := [sampleEntry2] }
              :: [((1 : Int), "/opt/vagrant_boxes/boxes/b/f1.box")].map
                   (fun b => FsOp.removeFile b.2))) ∧
    [sampleEntry2].Sublist sampleLedger2.versions :=
  c4_ledger_written_before_deletions "b" 1 sampleLedger2 [1, 2] [sampleEntry2]
    [((1 : Int), "/opt/vagrant_boxes/boxes/b/f1.box")] (by decide) (by decide)

/-- A string with a non-empty character list is not the empty string. -/
theorem str_ne_empty_of_data_ne_nil (s : String) (h : s.data ≠ []) : s ≠ "" := by
  intro he
  rw [he] at h
  exact h rfl

/-- The head of a character list avoiding a character is never that
character. -/
theorem head?_ne_of_not_mem {l : List Char} {c : Char} (h : c ∉ l) :
    l.head? ≠ some c := by
  cases l with
  | nil => simp
  | cons x xs =>
    intro hx
    have hxc : x = c := by simpa using hx
    exact h (hxc ▸ List.mem_cons_self x xs)

/-- For a non-empty box name the artifact directory path is the boxes root,
a slash, and the escaped name. -/
theorem get_box_dir_path_eq (box : String) :
    get_box_dir_path box = "/opt/vagrant_boxes/boxes/" ++ escape_box_name box := by
  unfold get_box_dir_path get_box_dir_name
  have h1 : osPathJoin INSTALL_DIR "boxes" = "/opt/vagrant_boxes/boxes" := rfl
  rw [h1]
  have hhead : (escape_box_name box).data.head? ≠ some '/' :=
    head?_ne_of_not_mem (escape_box_name_no_slash box)
  rw [osPathJoin_eq_concat "/opt/vagrant_boxes/boxes" (escape_box_name box)
    (by decide) (by decide) hhead]
  rw [show ("/opt/vagrant_boxes/boxes" ++ "/" : String) = "/opt/vagrant_boxes/boxes/" from rfl]

/-- For a non-empty box name the artifact directory path is non-empty and
does not end in a slash. -/
theorem get_box_dir_path_facts (box : String) (hb : box ≠ "") :
    get_box_dir_path box ≠ "" ∧
    (get_box_dir_path box).data.getLast? ≠ some '/' := by
  rw [get_box_dir_path_eq box]
  have hdata : ("/opt/vagrant_boxes/boxes/" ++ escape_box_name box).data
      = ("/opt/vagrant_boxes/boxes/" : String).data ++ (escape_box_name box).data := rfl
  constructor
  · apply str_ne_empty_of_data_ne_nil
    rw [hdata]
    simp
  · rw [hdata, List.getLast?_append_of_ne_nil _ (escape_box_name_ne_nil box hb)]
    intro hl
    exact escape_box_name_no_slash box
      (List.mem_of_mem_getLast? (by rw [hl]; exact Option.mem_some_self _))

/-- For a non-empty box name, joining the artifact directory with a
slash-free filename is plain slash-separated concatenation. -/
theorem prune_path_shape (box : String) (hb : box ≠ "") (f : String)
    (hf : '/' ∉ f.data) :
    osPathJoin (get_box_dir_path box) f = get_box_dir_path box ++ "/" ++ f := by
  obtain ⟨h1, h2⟩ := get_box_dir_path_facts box hb
  exact osPathJoin_eq_concat _ _ h1 h2 (head?_ne_of_not_mem hf)

/-- For a non-empty box name, a path directly inside the artifact directory
never equals the manifest path. -/
theorem prune_path_ne_json (box : String) (f : String) :
    get_box_dir_path box ++ "/" ++ f ≠ get_box_json_path box := by
  intro he
  unfold get_box_json_path at he
  have h1 : (get_box_dir_path box ++ "/" ++ f).data
      = (get_box_dir_path box).data ++ ('/' :: f.data) := by
    rw [show (get_box_dir_path box ++ "/" ++ f).data
        = ((get_box_dir_path box).data ++ ['/']) ++ f.data from rfl]
    simp
  have h2 : (get_box_dir_path box ++ ".json").data
      = (get_box_dir_path box).data ++ ('.' :: ("json" : String).data) := rfl
  have hdata : (get_box_dir_path box).data ++ ('/' :: f.data)
      = (get_box_dir_path box).data ++ ('.' :: ("json" : String).data) := by
    rw [← h1, ← h2, he]
  have hc := List.append_cancel_left hdata
  injection hc with hc1 hc2
  exact absurd hc1 (by decide)

/-- C9, amended: for every box with a non-empty name, every path deleted by
pruning is the box's artifact directory joined (with a slash) to the
substring of the entry's first provider URL after its last `/`; that
substring contains no separator, so the path lies directly inside the
artifact directory, and it never equals the manifest path.  For the empty
box name the claim fails (see the counterexample): the escaped directory
name is empty and a URL ending in `/.json` makes the deletion path
coincide with the manifest path. -/
theorem c9_deleted_paths_inside_box_dir (box : String) (hb : box ≠ "")
    (n : Int) (d : BoxDict) (ops : List FsOp) (p : String)
    (h : prune_boxes box n (some d) = some ops)
    (hmem : FsOp.removeFile p ∈ ops) :
    p ∈ d.versions.filterMap
      (fun e => (e.providers.head?).map
        (fun pr => get_box_dir_path box ++ "/" ++ lastSegment pr.url)) ∧
    '/' ∉ p.data.drop ((get_box_dir_path box).data.length + 1) ∧
    p ≠ get_box_json_path box := by
  unfold prune_boxes at h
  dsimp only at h
  cases hv : collectVersions d.versions with
  | none =>
    rw [hv] at h
    simp at h
  | some vs =>
    rw [hv] at h
    dsimp only at h
    cases hp : pruneLoop (get_box_dir_path box)
        (pySlice0 ((sortAsc vs).reverse) n) d.versions with
    | none =>
      rw [hp] at h
      simp at h
    | some pair =>
      obtain ⟨ks, ps⟩ := pair
      rw [hp] at h
      simp only [Option.some.injEq] at h
      subst h
      rcases List.mem_cons.mp hmem with hw | hr
      · exact absurd hw (by simp)
      · rcases List.mem_map.mp hr with ⟨q, hq, hqe⟩
        simp only [FsOp.removeFile.injEq] at hqe
        have hppath := (pruneLoop_spec _ _ d.versions ks ps hp).2 q hq
        rcases List.mem_filterMap.mp hppath with ⟨e, he, hfe⟩
        cases hhd : e.providers.head? with
        | none =>
          rw [hhd] at hfe
          simp at hfe
        | some pr =>
          rw [hhd] at hfe
          simp only [Option.map_some', Option.some.injEq] at hfe
          have hnos := lastSegment_no_slash pr.url
          have hshape := prune_path_shape box hb (lastSegment pr.url) hnos
          have hpval : p = get_box_dir_path box ++ "/" ++ lastSegment pr.url := by
            rw [← hqe, ← hfe]
            exact hshape
          refine ⟨?_, ?_, ?_⟩
          · apply List.mem_filterMap.mpr
            exact ⟨e, he, by rw [hhd]; simp [hpval]⟩
          · rw [hpval]
            have hdata : (get_box_dir_path box ++ "/" ++ lastSegment pr.url).data
                = (get_box_dir_path box).data ++ '/' :: (lastSegment pr.url).data := by
              rw [show (get_box_dir_path box ++ "/" ++ lastSegment pr.url).data
                  = ((get_box_dir_path box).data ++ ['/']) ++ (lastSegment pr.url).data
                  from rfl]
              simp
            rw [hdata]
            have hdrop : ((get_box_dir_path box).data
                ++ '/' :: (lastSegment pr.url).data).drop
                ((get_box_dir_path box).data.length + 1)
                = (lastSegment pr.url).data := by
              rw [List.drop_append 1]
              simp
            rw [hdrop]
            exact hnos
          · rw [hpval]
            exact prune_path_ne_json box (lastSegment pr.url)

/-- Witness for the amended C9: pruning box `b` to zero versions deletes
`f1.box` directly inside the box directory, and never the manifest. -/
theorem c9_deleted_paths_inside_box_dir_witness :
    ("/opt/vagrant_boxes/boxes/b/f1.box" : String) ∈ sampleLedger2.versions.filterMap
      (fun e => (e.providers.head?).map
        (fun pr => get_box_dir_path "b" ++ "/" ++ lastSegment pr.url)) ∧
    '/' ∉ ("/opt/vagrant_boxes/boxes/b/f1.box" : String).data.drop
      ((get_box_dir_path "b").data.length + 1) ∧
    ("/opt/vagrant_boxes/boxes/b/f1.box" : String) ≠ get_box_json_path "b" :=
  c9_deleted_paths_inside_box_dir "b" (by decide) 0 sampleLedger2
    [FsOp.writeJson (get_box_json_path "b") { sampleLedger2 with versions := [] }
     , FsOp.removeFile "/opt/vagrant_boxes/boxes/b/f1.box"
     , FsOp.removeFile "/opt/vagrant_boxes/boxes/b/f2.box"]
    "/opt/vagrant_boxes/boxes/b/f1.box" rfl (by decide)

/-- Witness for C7 on the two-version ledger: the frame conditions hold and
the caller-supplied name and description are ignored. -/
theorem c7_append_existing_frame_witness :
    sampleLedger2Appended.name = sampleLedger2.name ∧
    sampleLedger2Appended.description = sampleLedger2.description ∧
    sampleLedger2Appended.versions.length = sampleLedger2.versions.length + 1 ∧
    sampleLedger2Appended.versions.take sampleLedger2.versions.length
      = sampleLedger2.versions ∧
    update_box_json (some sampleLedger2) "other-name" "other-desc" "u" "s"
      = some sampleLedger2Appended :=
  c7_append_existing_frame sampleLedger2 "nm" "ds" "other-name" "other-desc" "u" "s"
    sampleLedger2Appended rfl
